import Mathlib

/-!
Verification of the JARV1S-Disassembler core against its specification.

We give a shallow embedding of the two source modules:

* `jvd/disassembler.py` — `DisassemblerAbstract`: the `_cfg` control-flow-graph
  derivation, the `disassemble` cache orchestrator and the `disassemble_all`
  batch driver.  The external backend (`_process`), the file-type sniffer
  (`get_file_type`) and the capability tagger (`capa_analyze`) are oracles
  supplied through an environment record; the filesystem is an explicit map
  from paths to file contents.

* `jvd/resources.py` — `ResourceAbstract`: `get`, `_download`, `cache`,
  and the module-level `require` lookup.  Network and filesystem effects are
  recorded as an explicit action trace.

Machine behaviour that Python leaves implicit (dict key order, truthiness,
implicit `return None`) is modelled exactly as CPython executes the source.
-/

namespace Jvd

/-- One disassembled basic block: `addr_start` and the list of call target
addresses, exactly the two keys `_cfg` reads from each element of
`res['blocks']`. -/
structure Block where
  addr_start : Nat
  calls : List Nat
deriving DecidableEq, Repr

/-- The Python dict comprehension `{b['addr_start']: ind for ind, b in
enumerate(res['blocks'])}` as a lookup function: later duplicates overwrite
earlier ones, and a missing key yields `none`. -/
def blk2ind (blocks : List Block) (a : Nat) : Option Nat :=
  (blocks.enum).foldl (fun acc p => if p.2.addr_start = a then some p.1 else acc) none

/-- The edge list built by `DisassemblerAbstract._cfg` (disassembler.py lines
25-31): for each block in order, for each call target in order, keep the pair
`(blk2ind[b['addr_start']], blk2ind[c])` when `c in blk2ind`.  The source
lookup `blk2ind[b['addr_start']]` cannot raise because `b` itself populated the
dict; the `getD 0` default is therefore never exercised for `b ∈ blocks`. -/
def _cfg (blocks : List Block) : List (Nat × Nat) :=
  blocks.flatMap fun b =>
    b.calls.filterMap fun c =>
      match blk2ind blocks c with
      | none => none
      | some j => some ((blk2ind blocks b.addr_start).getD 0, j)

/-- The specification's description of the CFG ("mapping each block's
`addr_start` to its position in blocks and keeping, in block-then-call order,
exactly those calls whose target address is the addr_start of some block"),
written independently of the source: positions via first match. -/
def cfgSpecEdges (blocks : List Block) : List (Nat × Nat) :=
  blocks.flatMap fun b =>
    b.calls.filterMap fun c =>
      if c ∈ blocks.map Block.addr_start then
        some (blocks.findIdx (fun b2 => b2.addr_start = b.addr_start),
              blocks.findIdx (fun b2 => b2.addr_start = c))
      else none

/-- Pairwise distinct `addr_start` values, the uniqueness invariant the data
model asserts for blocks of one record. -/
def UniqueAddrs (blocks : List Block) : Prop :=
  (blocks.map Block.addr_start).Nodup

instance (blocks : List Block) : Decidable (UniqueAddrs blocks) := by
  unfold UniqueAddrs; infer_instance

/-- Binary metadata, the dict `res['bin']`.  We track the one key the
orchestrator touches (`f_type`); all other keys are never read or written by
the code under verification. -/
structure BinMeta where
  f_type : Option String
deriving DecidableEq, Repr

/-- A parsed cache record, the JSON dict `res`.  `none` means the key is
absent.  `hasFTypeTop` is the *top-level* key `'f_type'`, the one tested by
`'f_type' not in res` at disassembler.py line 70; note the code only ever
writes `res['bin']['f_type']`, never the top-level key.  `capa` content is
opaque to the orchestrator, so we model only its presence. -/
structure Record where
  hasFTypeTop : Bool
  bin : Option BinMeta
  blocks : Option (List Block)
  cfg : Option (List (Nat × Nat))
  capa : Option Unit
deriving DecidableEq, Repr

/-- Content of one path on disk.  `raw` is any non-cache content (for example
the input binary); `gz r` is a valid gzip+JSON cache record; `corrupt msg` is
a file whose decompress/parse raises an exception with message `msg`. -/
inductive FileData
  | raw
  | gz (r : Record)
  | corrupt (msg : String)
deriving DecidableEq, Repr

/-- The filesystem: a map from paths to contents, `none` = no such path. -/
def FS : Type := String → Option FileData

/-- Write (or delete, with `none`) one path. -/
def FS.set (fs : FS) (p : String) (d : Option FileData) : FS :=
  fun q => if q = p then d else fs q

/-- Outcome of the whole workspace `try:` block of `disassemble`
(disassembler.py lines 45-57): either every step (`mkdir`, `copyfile`,
`_process`, copy-out) succeeded, producing the record written to the cache
path and the backend's log entries `out_log`, or some step raised an
exception with message `msg`. -/
inductive BackendResult
  | ok (rec : Record) (out_log : List String)
  | err (msg : String)
deriving DecidableEq, Repr

/-- The external collaborators `disassemble` consumes, as oracles:
`get_file_type`, the abstract `_process` backend (keyed by the original input
path; flags: file type, decompile), and `capa_analyze` (which may raise, hence
`Except`). -/
structure Oracles where
  file_type : String → String
  process : String → String → Bool → BackendResult
  capa_analyze : Record → String → Except String Unit

/-- What `disassemble` returns in its first component: the cache file path
(when `no_result`) or the parsed record. -/
inductive DisasmResult
  | path (p : String)
  | record (r : Record)
deriving DecidableEq, Repr

/-- How a call to `disassemble` terminates: a normal `return pair` or a
propagated exception (`raise`, only reachable when `verbose > 1`). -/
inductive Outcome
  | ret (res : Option DisasmResult) (log : List String)
  | raise (msg : String)
deriving DecidableEq, Repr

/-- Result of one `disassemble` call: its termination, whether the backend
branch ran, whether the augmentation step re-serialized the cache file
(`changed` was true), and the final filesystem. -/
structure DisasmOut where
  outcome : Outcome
  backendInvoked : Bool
  wroteCache : Bool
  fs : FS

/-- The log list extracted from an outcome (empty for a propagated raise). -/
def Outcome.log : Outcome → List String
  | .ret _ l => l
  | .raise _ => []

/-- `read_gz_js(js_file)`: decompress and parse the cache file, raising on a
missing, non-gzip or corrupt file. -/
def read_gz_js (fs : FS) (p : String) : Except String Record :=
  match fs p with
  | some (.gz r) => .ok r
  | some .raw => .error "not a gzipped json file"
  | some (.corrupt m) => .error m
  | none => .error ("No such file or directory: " ++ p)

/-- Python `str.lower()`, applied character-wise.  (Identical to
`String.toLower`, but defined with a plain structural map so that it reduces
inside the kernel.) -/
def lower (s : String) : String :=
  ⟨s.data.map Char.toLower⟩

/-- Python truthiness of an optional string argument (`x if x else y`
pattern): `None` and the empty string are falsy. -/
def truthyStr : Option String → Bool
  | none => false
  | some s => !(s == "")

/-- `file_type = file_type if file_type else get_file_type(file)`
(disassembler.py line 40). -/
def resolveFtype (O : Oracles) (file : String) (file_type : Option String) : String :=
  if truthyStr file_type then file_type.getD "" else O.file_type file

/-- The augmentation block of `disassemble` (disassembler.py lines 69-78):
ensure `f_type`, derive `cfg` on request, run `capa` on request, tracking the
`changed` flag.  Any raised exception (a `KeyError` on a record missing `bin`
or `blocks`, or an exception out of `capa_analyze`) aborts the block.  The
`'f_type' not in res` test reads the top level of the dict while the
assignment writes `res['bin']['f_type']`, exactly as the source does. -/
def augment (O : Oracles) (res : Record) (ftype file : String)
    (cfgFlag capaFlag : Bool) : Except String (Record × Bool) := do
  let (res, changed) ←
    if !res.hasFTypeTop then
      match res.bin with
      | none => Except.error "KeyError: bin"
      | some b => pure ({ res with bin := some { b with f_type := some ftype } }, true)
    else pure (res, false)
  let (res, changed) ←
    if cfgFlag && res.cfg.isNone then
      match res.blocks with
      | none => Except.error "KeyError: blocks"
      | some bs => pure ({ res with cfg := some (_cfg bs) }, true)
    else pure (res, changed)
  let (res, changed) ←
    if capaFlag && res.capa.isNone then
      match O.capa_analyze res file with
      | .error m => Except.error m
      | .ok u => pure ({ res with capa := some u }, true)
    else pure (res, changed)
  pure (res, changed)

/-- `DisassemblerAbstract.cleanup(file)` (disassembler.py lines 117-121):
remove `file + '.asm.json.gz'` if it exists.  Note the cache-key suffix
`additional_ext` is *not* part of the removed path. -/
def cleanupFile (fs : FS) (file : String) : FS :=
  FS.set fs (file ++ ".asm.json.gz") none

/-- The second `try:` block of `disassemble` (disassembler.py lines 67-100):
read the cache file, augment, rewrite the cache when `changed`, pick the
return value, and in `finally:` run `cleanup(file)` when requested (its own
errors swallowed).  On an exception: append `'Failed <file> msg: <e>'` to the
log and either re-raise (`verbose > 1`, after printing the log) or return
`(None, log)`; the `finally:` cleanup still runs on both of those paths.
`invoked` threads through whether the backend branch ran in the first phase.
At the `no_result` return the dict `res` is necessarily non-empty (an empty
dict would have raised `KeyError: bin` in the augmentation block), so
`js_file if res else None` is always `js_file`. -/
def disassemblePhase2 (O : Oracles) (fs : FS) (log : List String) (invoked : Bool)
    (file js_file ftype : String) (cleanup cfgFlag no_result capaFlag : Bool)
    (verbose : Int) : DisasmOut :=
  match (do
      let res ← read_gz_js fs js_file
      augment O res ftype file cfgFlag capaFlag : Except String (Record × Bool)) with
  | .error m =>
      let fs2 := if cleanup then cleanupFile fs file else fs
      if verbose > 1 then
        { outcome := .raise m, backendInvoked := invoked, wroteCache := false, fs := fs2 }
      else
        { outcome := .ret none (log ++ ["Failed " ++ file ++ " msg: " ++ m]),
          backendInvoked := invoked, wroteCache := false, fs := fs2 }
  | .ok (res2, changed) =>
      let fs2 := if changed then FS.set fs js_file (some (.gz res2)) else fs
      let fs3 := if cleanup then cleanupFile fs2 file else fs2
      let result := if no_result then some (.path js_file) else some (.record res2)
      { outcome := .ret result log, backendInvoked := invoked, wroteCache := changed,
        fs := fs3 }

/-- `DisassemblerAbstract.disassemble` (disassembler.py lines 33-100).
Phase one: compute `js_file = file + additional_ext + '.asm.json.gz'`; if it
exists, skip the backend and log the decision; otherwise run the workspace
block (modelled by the `process` oracle: on success the result record is
copied to `js_file`).  Line 55 of the source reads `log.extend(log)` — it
extends the log with *itself* and never appends the backend's `out_log`; the
log is empty at that point, so the self-extend is a no-op and the backend log
entries are dropped.  On a workspace exception the call appends the message
and returns `(None, log)` (or re-raises when `verbose > 1`) without running
the cache-cleanup `finally:`, which belongs to the second `try:` only. -/
def disassemble (O : Oracles) (fs : FS) (file : String)
    (decompile cleanup cfgFlag no_result : Bool) (file_type : Option String)
    (capaFlag : Bool) (verbose : Int) (additional_ext : String) : DisasmOut :=
  let js_file := file ++ additional_ext ++ ".asm.json.gz"
  let ftype := resolveFtype O file file_type
  match fs js_file with
  | some _ =>
      disassemblePhase2 O fs ["directly reading the generated json file"] false
        file js_file ftype cleanup cfgFlag no_result capaFlag verbose
  | none =>
      match O.process file ftype decompile with
      | .ok rec _out_log =>
          disassemblePhase2 O (FS.set fs js_file (some (.gz rec))) ([] ++ [])
            true file js_file ftype cleanup cfgFlag no_result capaFlag verbose
      | .err msg =>
          if verbose > 1 then
            { outcome := .raise msg, backendInvoked := true, wroteCache := false, fs := fs }
          else
            { outcome := .ret none [msg], backendInvoked := true, wroteCache := false,
              fs := fs }

/-- One yielded item of `disassemble_all`: `(index, (record_or_path, log))`. -/
abbrev Entry : Type := Nat × (Option DisasmResult × List String)

/-- How a whole batch run terminates: all items yielded and the driver
returned, or the driver raised `msg` after yielding the listed items. -/
inductive BatchOutcome
  | done (results : List Entry)
  | crashed (results : List Entry) (msg : String)
deriving DecidableEq

/-- The per-file loop shared by both drivers: run `disassemble` with
`no_result=True` and the batch's flags on each file in order, threading the
filesystem, yielding `(index, result)` pairs.  A propagated exception
(possible only when `verbose > 1`) aborts the loop.  For the multiprocessing
driver this is `m_map`.  Modelled from the spec: `m_map` lives in `jvd/utils`
(not under `src/`); per the spec it drives `disassemble` over every file on a
bounded worker pool and yields results tagged with their original index;
completion order is not guaranteed, and we model the canonical in-order
schedule with filesystem effects threaded sequentially. -/
def mapDrive (O : Oracles) (decompile cleanup cfgFlag capaFlag : Bool)
    (verbose : Int) : List String → Nat → FS → List Entry → BatchOutcome × FS
  | [], _, fs, acc => (.done acc, fs)
  | f :: rest, i, fs, acc =>
      let out := disassemble O fs f decompile cleanup cfgFlag true none capaFlag verbose ""
      match out.outcome with
      | .ret res log =>
          mapDrive O decompile cleanup cfgFlag capaFlag verbose rest (i + 1) out.fs
            (acc ++ [(i, (res, log))])
      | .raise msg => (.crashed acc msg, out.fs)

/-- `DisassemblerAbstract.disassemble_all` over an explicit file list
(disassembler.py lines 123-164), returning the stream of yielded items and
the final filesystem.  The sequential branch enumerates the files and yields
each result.  The multiprocessing branch first does `yield from m_map(...)`;
once `m_map` is exhausted, execution falls into the leftover block
`with ProcessPoolExecutor(max_workers=50) as e: ... e.map()` — `e.map()` is
called without its required `fn` argument, so CPython raises
`TypeError: map() missing 1 required positional argument` there, after every
per-file result has been yielded and consumed. -/
def disassemble_all (O : Oracles) (files : List String) (multiprocessing : Bool)
    (decompile cleanup cfgFlag capaFlag : Bool) (verbose : Int) (fs : FS) :
    BatchOutcome × FS :=
  if multiprocessing then
    match mapDrive O decompile cleanup cfgFlag capaFlag verbose files 0 fs [] with
    | (.done acc, fs2) =>
        (.crashed acc "TypeError: map() missing 1 required positional argument", fs2)
    | (.crashed acc m, fs2) => (.crashed acc m, fs2)
  else
    mapDrive O decompile cleanup cfgFlag capaFlag verbose files 0 fs []

/-- The consumer loop of `disassemble_all` (lines 161-164) prints the log of
every item whose result is `None`: the failing files are surfaced through
their per-file logs. -/
def failedLogs : BatchOutcome → List (List String)
  | .done rs => (rs.filter (fun e => e.2.1 = none)).map (fun e => e.2.2)
  | .crashed rs _ => (rs.filter (fun e => e.2.1 = none)).map (fun e => e.2.2)

/-- One `ResourceAbstract` instance (resources.py lines 28-41): the
implementation class name and the per-platform URL fields plus the three
behaviour flags set by the subclass constructor.  `none` models Python
`None`. -/
structure Resource where
  name : String
  linux : Option String
  windows : Option String
  darwin : Option String
  default : Option String
  unpack : Bool
  check_update : Bool
  with_permission : Bool

/-- Environment for `_download`: the module-level `online` flag (computed
at module import time), path existence, local modification time (epoch
seconds — the
source compares timezone-aware datetimes, which compare as instants), and the
metadata fetch `urlopen(url).info()['Last-Modified']` parsed to an instant;
`.error msg` stands for any exception raised inside the update-check `try:`
(connection failure, missing header, parse failure). -/
structure DlEnv where
  online : Bool
  pathExists : String → Bool
  mtime : String → Int
  lastModified : String → Except String Int

/-- One observable side effect of the resource-cache code, in program
order. -/
inductive RAction
  | makedirs (p : String)
  | removeFile (p : String)
  | rmtree (p : String)
  | downloadFile (url dest : String)
  | unpackArchive (src dest : String)
  | unzipWithPermission (src dest : String)
  | logInfo (msg : String)
  | logWarn (msg : String)
deriving DecidableEq, Repr

/-- Modelled from the spec: `fn_from_url` lives in `jvd/utils`, which is not
under `src/`; per the spec it computes the target file name from the URL, so
we take the final path segment (the characters after the last slash). -/
def fn_from_url (url : String) : String :=
  ⟨(url.data.reverse.takeWhile (fun c => c ≠ '/')).reverse⟩

/-- `ResourceAbstract.home`: the default download root. -/
def resourceHome : String := "~/jv-dependencies"

/-- The update-check block of `_download` (resources.py lines 63-84), as the
final value of the `download` flag.  It runs only when the file already
exists (`download` is false), `check_update` is set and the import-time
`online` flag is true; then the remote instant must be strictly newer than
the local modification time; any exception inside the `try:` leaves the
`download` flag at its incoming value. -/
def updateCheck (r : Resource) (env : DlEnv) (url filePath : String)
    (download0 : Bool) : Bool :=
  if !download0 && r.check_update && env.online then
    match env.lastModified url with
    | .ok urlDate => decide (env.mtime filePath < urlDate)
    | .error _ => download0
  else download0

/-- The log output of the update-check block: an info line when the server is
newer, a warning when the check raised. -/
def updateCheckLog (r : Resource) (env : DlEnv) (url filePath : String)
    (download0 : Bool) : List RAction :=
  if !download0 && r.check_update && env.online then
    match env.lastModified url with
    | .ok urlDate =>
        if env.mtime filePath < urlDate then
          [.logInfo "File exists but the server has a newer version."]
        else []
    | .error e =>
        [.logWarn ("Library " ++ e ++ " would like to check for updates but failed")]
  else []

/-- The transfer block of `_download` (resources.py lines 86-91): when a
download was decided, remove the stale file and unpack directory if present,
then fetch. -/
def transferActs (env : DlEnv) (url filePath file_unpack : String)
    (download1 : Bool) : List RAction :=
  if download1 then
    (if env.pathExists filePath then [.removeFile filePath] else []) ++
    (if env.pathExists file_unpack then [.rmtree file_unpack] else []) ++
    [.downloadFile url filePath]
  else []

/-- The unpack block of `_download` (resources.py lines 93-98): extract only
when the instance wants it *and* the caller allowed it, and only when the
unpack directory does not exist (it never exists right after a download,
which removed it). -/
def unpackActs (r : Resource) (env : DlEnv) (filePath file_unpack : String)
    (download1 : Bool) (unpack_if_needed : Bool) : List RAction :=
  if r.unpack && unpack_if_needed then
    if !(env.pathExists file_unpack && !download1) then
      if r.with_permission then [.unzipWithPermission filePath file_unpack]
      else [.unpackArchive filePath file_unpack]
    else []
  else []

/-- `ResourceAbstract._download` (resources.py lines 47-101), returning the
path the function returns together with the trace of its side effects.
Faithful points: the target folder is `<home>/<classname lowercased>`; the
file name defaults via truthiness (`if not file:`); `download` starts as
"target file absent", then passes through the update check. -/
def _download (r : Resource) (env : DlEnv) (url : String)
    (unpack_if_needed : Bool) (home : Option String) (file : Option String) :
    String × List RAction :=
  let home := home.getD resourceHome
  let folder := home ++ "/" ++ lower r.name
  let acts0 : List RAction := if env.pathExists folder then [] else [.makedirs folder]
  let fname := if truthyStr file then file.getD "" else fn_from_url url
  let filePath := folder ++ "/" ++ fname
  let file_unpack := filePath ++ "_unpacked"
  let download0 := !env.pathExists filePath
  let download1 := updateCheck r env url filePath download0
  let ret := if r.unpack && unpack_if_needed then file_unpack else filePath
  (ret, acts0 ++ updateCheckLog r env url filePath download0 ++
    transferActs env url filePath file_unpack download1 ++
    unpackActs r env filePath file_unpack download1 unpack_if_needed)

/-- The URL chosen by `ResourceAbstract.cache` (resources.py lines 104-110):
start from `default`, then let `linux`, `darwin`, `windows` — in that order,
each tested by Python truthiness — override it. -/
def cacheUrl (r : Resource) : Option String :=
  let u := r.default
  let u := if truthyStr r.linux then r.linux else u
  let u := if truthyStr r.darwin then r.darwin else u
  if truthyStr r.windows then r.windows else u

/-- `ResourceAbstract.cache(root)` (resources.py lines 103-113): resolve the
URL by the fixed precedence and call `_download` with `unpack_if_needed=False`
and `home=root`.  When every URL field is falsy the source passes `None` on to
`fn_from_url`, which raises; we model that degenerate case as `none`. -/
def Resource.cache (r : Resource) (env : DlEnv) (root : String) :
    Option (String × List RAction) :=
  (cacheUrl r).map fun url => _download r env url false (some root) none

/-- True exactly on the two actions that unpack an archive. -/
def RAction.isUnpack : RAction → Bool
  | .unpackArchive _ _ => true
  | .unzipWithPermission _ _ => true
  | _ => false

/-- One discovered `ResourceAbstract` subclass as `require` sees it: its
`__name__` and the path its `get()` returns. -/
structure ResourceImpl where
  className : String
  getResult : String
deriving DecidableEq, Repr

/-- The error type the specification postulates for unknown resource
lookups.  The source defines no such exception; the `Except` layer of
`require` records whether any exception is raised. -/
inductive ResourceError
  | unknownResource
deriving DecidableEq, Repr

instance {α β : Type} [DecidableEq α] [DecidableEq β] : DecidableEq (Except α β) :=
  fun a b =>
    match a, b with
    | .ok x, .ok y =>
        if h : x = y then .isTrue (by rw [h])
        else .isFalse (fun he => h (by injection he))
    | .error x, .error y =>
        if h : x = y then .isTrue (by rw [h])
        else .isFalse (fun he => h (by injection he))
    | .ok _, .error _ => .isFalse (fun he => Except.noConfusion he)
    | .error _, .ok _ => .isFalse (fun he => Except.noConfusion he)

/-- `require(library)` (resources.py lines 121-125): scan the discovered
subclasses in order and return `get()` of the first whose class name matches
case-insensitively.  When no subclass matches, control falls off the end of
the Python function, which therefore returns `None` — it raises nothing, so
the `.error` branch of the result type is never produced. -/
def require (impls : List ResourceImpl) (library : String) :
    Except ResourceError (Option String) :=
  match impls.find? (fun r => lower r.className == lower library) with
  | some r => .ok (some r.getResult)
  | none => .ok none

/-! Concrete sample environments used to evaluate the model at specific
inputs. -/

/-- Oracles for cache-hit runs: the backend reports an error if it is ever
reached, so any successful run certifies that it was not invoked. -/
def sniffOracles : Oracles :=
  ⟨fun _ => "pe_sniffed", fun _ _ _ => .err "backend must not run", fun _ _ => .ok ()⟩

/-- A fully augmented record: `f_type` set on the binary metadata, `cfg` and
`capa` both present — but, as for every record the augmentation step itself
writes, no *top-level* `f_type` key. -/
def fullRecord : Record :=
  ⟨false, some ⟨some "pe"⟩, some [], some [], some ()⟩

/-- A filesystem holding the cache file `bin1.asm.json.gz` with
`fullRecord`. -/
def fullCacheFs : FS :=
  fun p => if p = "bin1.asm.json.gz" then some (.gz fullRecord) else none

/-- A freshly produced backend record: binary metadata present, no `f_type`
anywhere, no `cfg`, no `capa`. -/
def plainRecord : Record :=
  ⟨false, some ⟨none⟩, some [], none, none⟩

/-- Oracles whose backend always succeeds, returning `plainRecord` and one
log entry. -/
def okOracles : Oracles :=
  ⟨fun _ => "elf", fun _ _ _ => .ok plainRecord ["backend wrote the result"],
   fun _ _ => .ok ()⟩

/-- A filesystem holding only the raw input binary `f3`. -/
def rawInputFs : FS :=
  fun p => if p = "f3" then some .raw else none

/-- Oracles whose backend throws on the file `bad` and succeeds on every
other file. -/
def mixedOracles : Oracles :=
  ⟨fun _ => "elf",
   fun f _ _ => if f = "bad" then .err "tool exploded"
     else .ok plainRecord ["backend log"],
   fun _ _ => .ok ()⟩

/-- The empty filesystem. -/
def emptyFs : FS := fun _ => none

/-- Oracles whose backend always throws. -/
def errOracles : Oracles :=
  ⟨fun _ => "elf", fun _ _ _ => .err "kaboom", fun _ _ => .ok ()⟩

/-- A resource with `check_update` enabled and only a `default` URL. -/
def updResource : Resource :=
  ⟨"SigKit", none, none, none, some "http://x/f.zip", false, true, false⟩

/-- A download environment where the target folder and file exist, the local
file has modification time 0 and the server reports Last-Modified 100. -/
def updEnv : DlEnv :=
  ⟨true, fun p => p == "root/sigkit" || p == "root/sigkit/f.zip",
   fun _ => 0, fun _ => .ok 100⟩

/-- A resource with `unpack` enabled and URLs for every slot but `darwin`. -/
def capResource : Resource :=
  ⟨"ToolKit", some "http://l/a.zip", some "http://w/c.zip", none,
   some "http://d/base.zip", true, false, false⟩


/-! Helper lemmas. -/

/-- The dict-build fold of `_cfg`, characterised on `enumFrom` lists with
pairwise distinct addresses: it finds the (unique) index of a present
address. -/
lemma blk2ind_enumFrom (a : Nat) :
    ∀ (bs : List Block) (n : Nat) (acc : Option Nat),
      (bs.map Block.addr_start).Nodup →
      ((List.enumFrom n bs).foldl
        (fun o p => if p.2.addr_start = a then some p.1 else o) acc)
      = if a ∈ bs.map Block.addr_start
        then some (n + bs.findIdx (fun b2 => b2.addr_start = a))
        else acc
  | [], n, acc, _ => by simp
  | b :: bs, n, acc, h => by
    simp only [List.map_cons, List.nodup_cons] at h
    obtain ⟨hnb, hnd⟩ := h
    rw [show List.enumFrom n (b :: bs) = (n, b) :: List.enumFrom (n+1) bs by
      simp [List.enumFrom]]
    rw [List.foldl_cons]
    by_cases hb : b.addr_start = a
    · subst hb
      rw [if_pos rfl]
      rw [blk2ind_enumFrom b.addr_start bs (n+1) (some n) hnd]
      rw [if_neg hnb, if_pos (by simp)]
      simp [List.findIdx_cons]
    · rw [if_neg hb]
      rw [blk2ind_enumFrom a bs (n+1) acc hnd]
      by_cases hc : a ∈ bs.map Block.addr_start
      · rw [if_pos hc, if_pos (by simp [hc]), List.findIdx_cons]
        simp only [hb, decide_eq_true_eq]
        simp [hb]
        omega
      · rw [if_neg hc, if_neg (by simp [hc]; exact fun hba => hb hba.symm)]

/-- Under the record invariant of unique block addresses, the dict lookup of
`_cfg` is the first-match position. -/
lemma blk2ind_eq (blocks : List Block) (h : UniqueAddrs blocks) (a : Nat) :
    blk2ind blocks a
      = if a ∈ blocks.map Block.addr_start
        then some (blocks.findIdx (fun b2 => b2.addr_start = a))
        else none := by
  unfold blk2ind
  rw [show blocks.enum = List.enumFrom 0 blocks from rfl]
  rw [blk2ind_enumFrom a blocks 0 none h]
  simp

/-- The second phase of `disassemble` never touches the backend: it reports
whatever invocation flag it was handed. -/
lemma disassemblePhase2_backendInvoked (O : Oracles) (fs : FS) (log : List String)
    (invoked : Bool) (file js_file ftype : String)
    (cleanup cfgFlag no_result capaFlag : Bool) (verbose : Int) :
    (disassemblePhase2 O fs log invoked file js_file ftype cleanup cfgFlag no_result
      capaFlag verbose).backendInvoked = invoked := by
  unfold disassemblePhase2
  split
  · split <;> split <;> rfl
  · rfl

/-- When the read-and-augment block raises, the second phase of `disassemble`
returns `(None, log + [error])` below the verbosity threshold and re-raises
above it. -/
lemma disassemblePhase2_error_outcome (O : Oracles) (fs : FS) (log : List String)
    (invoked : Bool) (file js_file ftype : String)
    (cleanup cfgFlag no_result capaFlag : Bool) (verbose : Int) (m : String)
    (h : (do
        let res ← read_gz_js fs js_file
        augment O res ftype file cfgFlag capaFlag : Except String (Record × Bool))
      = .error m) :
    (disassemblePhase2 O fs log invoked file js_file ftype cleanup cfgFlag no_result
      capaFlag verbose).outcome
    = if verbose > 1 then .raise m
      else .ret none (log ++ ["Failed " ++ file ++ " msg: " ++ m]) := by
  unfold disassemblePhase2
  split
  · rename_i m2 heq
    rw [h] at heq
    injection heq with hm
    subst hm
    by_cases hv : verbose > 1
    · simp only [if_pos hv]
    · simp only [if_neg hv]
  · rename_i p heq
    rw [h] at heq
    exact Except.noConfusion heq

/-- The update check fires exactly when `check_update` and the import-time
connectivity flag hold and the remote instant is strictly newer. -/
lemma updateCheck_false_iff (r : Resource) (env : DlEnv) (url fp : String) :
    updateCheck r env url fp false = true ↔
      (r.check_update = true ∧ env.online = true ∧
        ∃ lm, env.lastModified url = .ok lm ∧ env.mtime fp < lm) := by
  unfold updateCheck
  by_cases hcu : r.check_update = true <;> by_cases hon : env.online = true <;>
    simp [hcu, hon]
  cases hlm : env.lastModified url with
  | ok lm => simp [hlm]
  | error e => simp [hlm]

/-- Every action emitted by the update-check block is a log line. -/
lemma updateCheckLog_only_logs (r : Resource) (env : DlEnv) (url fp : String)
    (d0 : Bool) : ∀ a ∈ updateCheckLog r env url fp d0,
      (∃ m, a = RAction.logInfo m) ∨ (∃ m, a = RAction.logWarn m) := by
  intro a ha
  unfold updateCheckLog at ha
  split at ha
  · split at ha
    · split at ha
      · simp at ha; subst ha; left; exact ⟨_, rfl⟩
      · simp at ha
    · simp at ha; subst ha; right; exact ⟨_, rfl⟩
  · simp at ha

/-- Every action emitted by the unpack block is an unpack action. -/
lemma unpackActs_only_unpacks (r : Resource) (env : DlEnv) (fp fup : String)
    (d1 up : Bool) : ∀ a ∈ unpackActs r env fp fup d1 up, a.isUnpack = true := by
  intro a ha
  unfold unpackActs at ha
  split at ha
  · split at ha
    · split at ha <;> (simp at ha; subst ha; rfl)
    · simp at ha
  · simp at ha

/-- The transfer block contains the fetch action exactly when a download was
decided. -/
lemma transferActs_downloadFile_mem (env : DlEnv) (url fp fup : String) (d1 : Bool) :
    (RAction.downloadFile url fp ∈ transferActs env url fp fup d1) ↔ d1 = true := by
  unfold transferActs
  by_cases h : d1 = true <;> simp [h]

/-- When the target file exists, the transfer block removes it exactly when a
download was decided. -/
lemma transferActs_removeFile_mem (env : DlEnv) (url fp fup : String) (d1 : Bool)
    (h : env.pathExists fp = true) :
    (RAction.removeFile fp ∈ transferActs env url fp fup d1) ↔ d1 = true := by
  unfold transferActs
  by_cases hd : d1 = true <;> simp [hd, h]

/-- On a field that is not the empty string, Python truthiness coincides with
presence. -/
lemma truthyStr_ne_empty (x : Option String) (hx : x ≠ some "") :
    truthyStr x = x.isSome := by
  cases x with
  | none => rfl
  | some s =>
    have hs : s ≠ "" := fun h => hx (by rw [h])
    simp [truthyStr, hs]

/-- The optional `makedirs` action is never an unpack action. -/
lemma acts0_no_unpack (c : Bool) (f : String) :
    ∀ a ∈ (if c then ([] : List RAction) else [RAction.makedirs f]),
      a.isUnpack = false := by
  intro a ha
  split at ha
  · simp at ha
  · simp at ha
    subst ha
    rfl

/-- The transfer block never unpacks. -/
lemma transferActs_no_unpack (env : DlEnv) (url fp fup : String) (d1 : Bool) :
    ∀ a ∈ transferActs env url fp fup d1, a.isUnpack = false := by
  intro a ha
  unfold transferActs at ha
  split at ha
  · simp only [List.mem_append] at ha
    rcases ha with (ha | ha) | ha
    · split at ha
      · simp at ha; subst ha; rfl
      · simp at ha
    · split at ha
      · simp at ha; subst ha; rfl
      · simp at ha
    · simp at ha; subst ha; rfl
  · simp at ha

/-- The only fetch the transfer block can emit targets its own URL and file
path. -/
lemma transferActs_downloadFile_inv (env : DlEnv) (url fp fup : String) (d1 : Bool)
    (u d : String) :
    RAction.downloadFile u d ∈ transferActs env url fp fup d1 → u = url ∧ d = fp := by
  intro ha
  unfold transferActs at ha
  split at ha
  · simp only [List.mem_append] at ha
    rcases ha with (ha | ha) | ha
    · split at ha <;> simp at ha
    · split at ha <;> simp at ha
    · simp at ha
      exact ⟨ha.1, ha.2⟩
  · simp at ha

/-- With unpacking disallowed by the caller, the unpack block is empty. -/
lemma unpackActs_false_nil (r : Resource) (env : DlEnv) (fp fup : String) (d1 : Bool) :
    unpackActs r env fp fup d1 false = [] := by
  unfold unpackActs
  simp

end Jvd
namespace Jvd

/-- C1: refuted on the code — a cache file whose record carries `f_type` on
the binary metadata and already has `cfg` and `capa` is *not* a pure cache
read.  Line 70 tests the top-level key (`'f_type' not in res`) while line 71
writes `res['bin']['f_type']`, so `changed` is set and the cache file is
re-serialized (here even with different bytes, as the sniffed type overwrites
the stored one) on every call, although the backend is correctly skipped. -/
theorem c1_full_cache_hit_still_marks_changed :
    fullRecord.bin = some ⟨some "pe"⟩
    ∧ fullRecord.cfg.isSome = true
    ∧ fullRecord.capa.isSome = true
    ∧ fullCacheFs "bin1.asm.json.gz" = some (.gz fullRecord)
    ∧ (disassemble sniffOracles fullCacheFs "bin1" false false true false none true
        (-1) "").backendInvoked = false
    ∧ (disassemble sniffOracles fullCacheFs "bin1" false false true false none true
        (-1) "").wroteCache = true
    ∧ (disassemble sniffOracles fullCacheFs "bin1" false false true false none true
        (-1) "").fs "bin1.asm.json.gz" ≠ fullCacheFs "bin1.asm.json.gz" := by
  refine ⟨rfl, rfl, rfl, rfl, by decide, by decide, by decide⟩

/-- C2: when the cache file exists, `disassemble` never enters the backend
branch — a pure existence check on `file + additional_ext + '.asm.json.gz'`,
independent of the cached content and of every flag. -/
theorem c2_cache_exists_skips_backend (O : Oracles) (fs : FS) (file : String)
    (decompile cleanup cfgF no_result : Bool) (ft : Option String) (capaF : Bool)
    (verbose : Int) (ext : String)
    (h : (fs (file ++ ext ++ ".asm.json.gz")).isSome = true) :
    (disassemble O fs file decompile cleanup cfgF no_result ft capaF verbose
      ext).backendInvoked = false := by
  obtain ⟨d, hd⟩ := Option.isSome_iff_exists.mp h
  simp only [disassemble]
  rw [hd]
  exact disassemblePhase2_backendInvoked ..

/-- C2 witness: a corrupt cache file also suppresses the backend. -/
theorem c2_cache_exists_skips_backend_witness :
    (disassemble sniffOracles fullCacheFs "bin1" false false false false none false
      2 "").backendInvoked = false :=
  c2_cache_exists_skips_backend sniffOracles fullCacheFs "bin1" false false false
    false none false 2 "" (by decide)

/-- C3: refuted on the code — `cleanup` removes `file + '.asm.json.gz'`
without the cache-key suffix, so after a `cleanup=True` run with
`additional_ext='.x'` the suffixed cache file still exists (the input file is
untouched); only the empty-suffix cache file is removed. -/
theorem c3_cleanup_misses_suffixed_cache :
    ((disassemble okOracles rawInputFs "f3" false true false false none false
        (-1) ".x").fs "f3.x.asm.json.gz").isSome = true
    ∧ (disassemble okOracles rawInputFs "f3" false true false false none false
        (-1) ".x").fs "f3" = some .raw
    ∧ (disassemble okOracles rawInputFs "f3" false true false false none false
        (-1) "").fs "f3.asm.json.gz" = none := by
  refine ⟨by decide, by decide, by decide⟩

/-- C4 counterexample: a lookup that matches no implementation does not fail
with any error — the source has no `UnknownResourceError`; the Python
function falls off its final loop and returns `None`. -/
theorem c4_unknown_returns_none_not_error :
    require [⟨"Ghidra", "/deps/ghidra"⟩] "radare2"
        ≠ Except.error ResourceError.unknownResource
    ∧ require [⟨"Ghidra", "/deps/ghidra"⟩] "radare2" = Except.ok none := by
  have h : require [⟨"Ghidra", "/deps/ghidra"⟩] "radare2" = Except.ok none := by
    decide
  constructor
  · intro habs
    rw [h] at habs
    exact Except.noConfusion habs
  · exact h

/-- C4 (amended): `require` returns `None` when no implementation class name
matches case-insensitively, returns `get()` of the first match otherwise, and
never raises. -/
theorem c4_require_first_match_or_none (impls : List ResourceImpl)
    (library : String) :
    ((∀ r ∈ impls, lower r.className ≠ lower library) →
      require impls library = .ok none)
    ∧ (∀ r, impls.find? (fun r => lower r.className == lower library) = some r →
        require impls library = .ok (some r.getResult))
    ∧ (∀ e, require impls library ≠ .error e) := by
  refine ⟨?_, ?_, ?_⟩
  · intro hno
    unfold require
    rw [List.find?_eq_none.mpr]
    intro x hx
    simp only [beq_iff_eq]
    exact hno x hx
  · intro r hr
    unfold require
    rw [hr]
  · intro e
    unfold require
    cases hf : impls.find? (fun r => lower r.className == lower library) <;> simp

/-- C4 witness: instantiating the amended statement. -/
theorem c4_require_witness :
    require [⟨"Ghidra", "/deps/ghidra"⟩] "IDAPro" = Except.ok none :=
  (c4_require_first_match_or_none [⟨"Ghidra", "/deps/ghidra"⟩] "IDAPro").1
    (by decide)

/-- C5: on records whose blocks have pairwise distinct `addr_start` values,
`_cfg` produces exactly the specification's edge list — each block's address
mapped to its position, keeping, in block-then-call order, only the calls
whose target is the address of some block — and on the spec's concrete
example the edge to the unresolved address 999 is silently dropped, giving
`[(0, 1)]`. -/
theorem c5_cfg_matches_spec :
    (∀ blocks : List Block, UniqueAddrs blocks → _cfg blocks = cfgSpecEdges blocks)
    ∧ _cfg [⟨10, [20]⟩, ⟨20, [999]⟩] = [(0, 1)] := by
  constructor
  · intro blocks h
    unfold _cfg cfgSpecEdges
    apply List.flatMap_congr
    intro b hb
    apply List.filterMap_congr
    intro c _
    have hbmem : b.addr_start ∈ blocks.map Block.addr_start :=
      List.mem_map_of_mem Block.addr_start hb
    rw [blk2ind_eq blocks h c, blk2ind_eq blocks h b.addr_start, if_pos hbmem]
    by_cases hc : c ∈ blocks.map Block.addr_start
    · rw [if_pos hc, if_pos hc]
      simp
    · rw [if_neg hc, if_neg hc]
  · decide

/-- C5 witness: the uniqueness hypothesis holds of a three-block record with
forward, unresolved and backward calls. -/
theorem c5_cfg_matches_spec_witness :
    _cfg [⟨10, [20, 30]⟩, ⟨20, [999]⟩, ⟨30, [10]⟩]
      = cfgSpecEdges [⟨10, [20, 30]⟩, ⟨20, [999]⟩, ⟨30, [10]⟩] :=
  c5_cfg_matches_spec.1 [⟨10, [20, 30]⟩, ⟨20, [999]⟩, ⟨30, [10]⟩] (by decide)

end Jvd
namespace Jvd

/-- C6: for an already-present resource file, `_download` decides to delete
and re-fetch exactly when `check_update` is set, the import-time connectivity
flag is true and the server's Last-Modified instant is strictly newer than
the local modification time; any exception during that metadata check is
logged as a warning and produces no download (the model is total, so nothing
propagates to the caller). -/
theorem c6_update_check_governs_redownload (r : Resource) (env : DlEnv)
    (url root : String) (up : Bool)
    (hex : env.pathExists (root ++ "/" ++ lower r.name ++ "/" ++ fn_from_url url)
      = true) :
    ((RAction.downloadFile url (root ++ "/" ++ lower r.name ++ "/" ++ fn_from_url url)
        ∈ (_download r env url up (some root) none).2)
      ↔ (RAction.removeFile (root ++ "/" ++ lower r.name ++ "/" ++ fn_from_url url)
        ∈ (_download r env url up (some root) none).2))
    ∧ ((RAction.downloadFile url (root ++ "/" ++ lower r.name ++ "/" ++ fn_from_url url)
        ∈ (_download r env url up (some root) none).2)
      ↔ (r.check_update = true ∧ env.online = true ∧
          ∃ lm, env.lastModified url = .ok lm ∧
            env.mtime (root ++ "/" ++ lower r.name ++ "/" ++ fn_from_url url) < lm))
    ∧ (∀ e, env.lastModified url = .error e →
        (RAction.downloadFile url (root ++ "/" ++ lower r.name ++ "/" ++ fn_from_url url)
          ∉ (_download r env url up (some root) none).2)
        ∧ (r.check_update = true → env.online = true →
            RAction.logWarn ("Library " ++ e ++ " would like to check for updates but failed")
              ∈ (_download r env url up (some root) none).2)) := by
  set fp := root ++ "/" ++ lower r.name ++ "/" ++ fn_from_url url with hfp
  have hacts : (_download r env url up (some root) none).2
      = (if env.pathExists (root ++ "/" ++ lower r.name) then []
          else [RAction.makedirs (root ++ "/" ++ lower r.name)])
        ++ updateCheckLog r env url fp false
        ++ transferActs env url fp (fp ++ "_unpacked") (updateCheck r env url fp false)
        ++ unpackActs r env fp (fp ++ "_unpacked") (updateCheck r env url fp false) up := by
    simp only [_download, truthyStr, Option.getD_some, Bool.false_eq_true, if_false]
    rw [hfp] at hex
    rw [hex]
    rfl
  have h0 : RAction.downloadFile url fp
      ∉ (if env.pathExists (root ++ "/" ++ lower r.name) then ([] : List RAction)
          else [RAction.makedirs (root ++ "/" ++ lower r.name)]) := by
    split <;> simp
  have h1 : RAction.downloadFile url fp ∉ updateCheckLog r env url fp false := by
    intro hmem
    rcases updateCheckLog_only_logs r env url fp false _ hmem with ⟨m, hm⟩ | ⟨m, hm⟩ <;>
      exact RAction.noConfusion hm
  have h3 : RAction.downloadFile url fp
      ∉ unpackActs r env fp (fp ++ "_unpacked") (updateCheck r env url fp false) up := by
    intro hmem
    have := unpackActs_only_unpacks r env fp (fp ++ "_unpacked")
      (updateCheck r env url fp false) up _ hmem
    simp [RAction.isUnpack] at this
  have hdl : (RAction.downloadFile url fp ∈ (_download r env url up (some root) none).2)
      ↔ updateCheck r env url fp false = true := by
    rw [hacts]
    simp only [List.mem_append]
    rw [← transferActs_downloadFile_mem env url fp (fp ++ "_unpacked")
      (updateCheck r env url fp false)]
    tauto
  have h0r : RAction.removeFile fp
      ∉ (if env.pathExists (root ++ "/" ++ lower r.name) then ([] : List RAction)
          else [RAction.makedirs (root ++ "/" ++ lower r.name)]) := by
    split <;> simp
  have h1r : RAction.removeFile fp ∉ updateCheckLog r env url fp false := by
    intro hmem
    rcases updateCheckLog_only_logs r env url fp false _ hmem with ⟨m, hm⟩ | ⟨m, hm⟩ <;>
      exact RAction.noConfusion hm
  have h3r : RAction.removeFile fp
      ∉ unpackActs r env fp (fp ++ "_unpacked") (updateCheck r env url fp false) up := by
    intro hmem
    have := unpackActs_only_unpacks r env fp (fp ++ "_unpacked")
      (updateCheck r env url fp false) up _ hmem
    simp [RAction.isUnpack] at this
  have hrm : (RAction.removeFile fp ∈ (_download r env url up (some root) none).2)
      ↔ updateCheck r env url fp false = true := by
    rw [hacts]
    simp only [List.mem_append]
    rw [← transferActs_removeFile_mem env url fp (fp ++ "_unpacked")
      (updateCheck r env url fp false) hex]
    tauto
  refine ⟨?_, ?_, ?_⟩
  · rw [hdl, hrm]
  · rw [hdl]
    exact updateCheck_false_iff r env url fp
  · intro e hlm
    constructor
    · rw [hdl]
      unfold updateCheck
      rw [hlm]
      split <;> simp
    · intro hcu hon
      rw [hacts]
      have hlog : updateCheckLog r env url fp false
          = [RAction.logWarn ("Library " ++ e ++ " would like to check for updates but failed")] := by
        unfold updateCheckLog
        rw [hlm]
        simp [hcu, hon]
      rw [hlog]
      simp

/-- C6 witness: with the file present, `check_update` on, connectivity up and
a strictly newer server timestamp, the fetch action is emitted. -/
theorem c6_update_check_witness :
    RAction.downloadFile "http://x/f.zip" ("root" ++ "/" ++ lower updResource.name
        ++ "/" ++ fn_from_url "http://x/f.zip")
      ∈ (_download updResource updEnv "http://x/f.zip" true (some "root") none).2 :=
  ((c6_update_check_governs_redownload updResource updEnv "http://x/f.zip" "root"
      true (by decide)).2.1).mpr ⟨rfl, rfl, 100, rfl, by decide⟩

end Jvd
namespace Jvd

/-- C7: any exception inside the two guarded phases of `disassemble` — the
workspace/backend block on a cache miss, a corrupt cache file, or a failure
of the augmentation block (including `capa_analyze`) — makes the call return
`(None, log)` with the error message appended when `verbose ≤ 1`, and
re-raise when `verbose > 1`. -/
theorem c7_errors_logged_or_reraised (O : Oracles) (fs : FS) (file : String)
    (decompile cleanup cfgF no_result : Bool) (ft : Option String) (capaF : Bool)
    (verbose : Int) (ext msg : String) :
    ((fs (file ++ ext ++ ".asm.json.gz") = none) →
      O.process file (resolveFtype O file ft) decompile = .err msg →
      ((verbose ≤ 1 →
        (disassemble O fs file decompile cleanup cfgF no_result ft capaF verbose
          ext).outcome = .ret none [msg])
       ∧ (1 < verbose →
        (disassemble O fs file decompile cleanup cfgF no_result ft capaF verbose
          ext).outcome = .raise msg)))
    ∧ ((fs (file ++ ext ++ ".asm.json.gz") = some (.corrupt msg)) →
      ((verbose ≤ 1 →
        (disassemble O fs file decompile cleanup cfgF no_result ft capaF verbose
          ext).outcome
          = .ret none ["directly reading the generated json file",
                       "Failed " ++ file ++ " msg: " ++ msg])
       ∧ (1 < verbose →
        (disassemble O fs file decompile cleanup cfgF no_result ft capaF verbose
          ext).outcome = .raise msg)))
    ∧ (∀ r : Record, fs (file ++ ext ++ ".asm.json.gz") = some (.gz r) →
      augment O r (resolveFtype O file ft) file cfgF capaF = .error msg →
      ((verbose ≤ 1 →
        (disassemble O fs file decompile cleanup cfgF no_result ft capaF verbose
          ext).outcome
          = .ret none ["directly reading the generated json file",
                       "Failed " ++ file ++ " msg: " ++ msg])
       ∧ (1 < verbose →
        (disassemble O fs file decompile cleanup cfgF no_result ft capaF verbose
          ext).outcome = .raise msg))) := by
  refine ⟨?_, ?_, ?_⟩
  · intro hmiss hproc
    simp only [disassemble]
    rw [hmiss, hproc]
    constructor
    · intro hv
      show (if verbose > 1 then _ else _ : DisasmOut).outcome = _
      rw [if_neg (by omega)]
    · intro hv
      show (if verbose > 1 then _ else _ : DisasmOut).outcome = _
      rw [if_pos (by omega)]
  · intro hc
    simp only [disassemble]
    rw [hc]
    have hdo : (do
        let res ← read_gz_js fs (file ++ ext ++ ".asm.json.gz")
        augment O res (resolveFtype O file ft) file cfgF capaF
          : Except String (Record × Bool)) = .error msg := by
      show Except.bind (read_gz_js fs (file ++ ext ++ ".asm.json.gz")) _ = _
      unfold read_gz_js
      rw [hc]
      rfl
    rw [disassemblePhase2_error_outcome _ _ _ _ _ _ _ _ _ _ _ _ _ hdo]
    constructor
    · intro hv
      rw [if_neg (by omega)]
      rfl
    · intro hv
      rw [if_pos (by omega)]
  · intro r hgz haug
    simp only [disassemble]
    rw [hgz]
    have hdo : (do
        let res ← read_gz_js fs (file ++ ext ++ ".asm.json.gz")
        augment O res (resolveFtype O file ft) file cfgF capaF
          : Except String (Record × Bool)) = .error msg := by
      have hread : read_gz_js fs (file ++ ext ++ ".asm.json.gz") = .ok r := by
        unfold read_gz_js
        rw [hgz]
      show Except.bind (read_gz_js fs (file ++ ext ++ ".asm.json.gz")) _ = _
      rw [hread]
      exact haug
    rw [disassemblePhase2_error_outcome _ _ _ _ _ _ _ _ _ _ _ _ _ hdo]
    constructor
    · intro hv
      rw [if_neg (by omega)]
      rfl
    · intro hv
      rw [if_pos (by omega)]

/-- C7 witness: a backend failure at default verbosity returns `(None, log)`
with the error message. -/
theorem c7_errors_logged_witness :
    (disassemble errOracles emptyFs "f7" false false false false none false (-1)
      "").outcome = .ret none ["kaboom"] :=
  ((c7_errors_logged_or_reraised errOracles emptyFs "f7" false false false false
      none false (-1) "" "kaboom").1 (by decide) (by decide)).1 (by decide)

/-- C8: evaluated on a two-file batch whose first file makes the backend
throw, at default verbosity.  Both drivers process both files and surface the
failure only through the per-file log; but the multiprocessing driver then
falls into the leftover `with ProcessPoolExecutor(...) as e: ... e.map()`
block, whose argument-less `e.map()` raises a `TypeError` that aborts
`disassemble_all` after the batch results were yielded. -/
theorem c8_batch_isolation_but_mp_typeerror :
    (disassemble_all mixedOracles ["bad", "good"] true false false false false
        (-1) emptyFs).1
      = .crashed [(0, (none, ["tool exploded"])),
                  (1, (some (.path "good.asm.json.gz"), []))]
          "TypeError: map() missing 1 required positional argument"
    ∧ (disassemble_all mixedOracles ["bad", "good"] false false false false false
        (-1) emptyFs).1
      = .done [(0, (none, ["tool exploded"])),
               (1, (some (.path "good.asm.json.gz"), []))]
    ∧ failedLogs (disassemble_all mixedOracles ["bad", "good"] false false false
        false false (-1) emptyFs).1 = [["tool exploded"]] := by
  refine ⟨by decide, by decide, by decide⟩

/-- C9: refuted on the code — on a cache miss with a successful backend run,
the backend's returned log entries never reach the accumulated log: line 51
binds them to `out_log`, but line 55 executes `log.extend(log)`, extending
the (empty) log with itself, so the returned log is empty. -/
theorem c9_backend_log_entries_dropped :
    okOracles.process "f3" "elf" false = .ok plainRecord ["backend wrote the result"]
    ∧ (disassemble okOracles rawInputFs "f3" false false false false none false
        (-1) "").backendInvoked = true
    ∧ ((disassemble okOracles rawInputFs "f3" false false false false none false
        (-1) "").outcome).log = [] := by
  refine ⟨rfl, by decide, by decide⟩

/-- C10: `cache(root)` resolves its URL by the fixed precedence `default`,
then `linux`, then `darwin`, then `windows` — each later present (truthy)
value overriding, regardless of the running platform — and every fetch it can
emit targets `<root>/<kind>/<name-from-url>`, while no unpack action is ever
emitted. -/
theorem c10_cache_precedence_and_no_unpack (r : Resource) (env : DlEnv)
    (root : String)
    (h : r.linux ≠ some "" ∧ r.darwin ≠ some "" ∧ r.windows ≠ some "") :
    cacheUrl r
      = (r.windows.orElse fun _ => r.darwin.orElse fun _ => r.linux.orElse fun _ =>
          r.default)
    ∧ ∀ p acts, Resource.cache r env root = some (p, acts) →
        (∀ a ∈ acts, a.isUnpack = false)
        ∧ (∀ u d, RAction.downloadFile u d ∈ acts →
            some u = cacheUrl r
            ∧ d = root ++ "/" ++ lower r.name ++ "/" ++ fn_from_url u) := by
  obtain ⟨hl, hd, hw⟩ := h
  constructor
  · unfold cacheUrl
    rw [truthyStr_ne_empty _ hw, truthyStr_ne_empty _ hd, truthyStr_ne_empty _ hl]
    cases r.windows <;> cases r.darwin <;> cases r.linux <;> simp [Option.orElse]
  · intro p acts hc
    cases hcu : cacheUrl r with
    | none => simp [Resource.cache, hcu] at hc
    | some url =>
      rw [Resource.cache, hcu] at hc
      simp only [Option.map_some', Option.some.injEq] at hc
      have hacts : acts = (_download r env url false (some root) none).2 := by
        rw [hc]
      have hsplit : (_download r env url false (some root) none).2
          = (if env.pathExists (root ++ "/" ++ lower r.name) then []
              else [RAction.makedirs (root ++ "/" ++ lower r.name)])
            ++ updateCheckLog r env url
                (root ++ "/" ++ lower r.name ++ "/" ++ fn_from_url url)
                (!env.pathExists (root ++ "/" ++ lower r.name ++ "/" ++ fn_from_url url))
            ++ transferActs env url
                (root ++ "/" ++ lower r.name ++ "/" ++ fn_from_url url)
                ((root ++ "/" ++ lower r.name ++ "/" ++ fn_from_url url) ++ "_unpacked")
                (updateCheck r env url
                  (root ++ "/" ++ lower r.name ++ "/" ++ fn_from_url url)
                  (!env.pathExists (root ++ "/" ++ lower r.name ++ "/" ++ fn_from_url url)))
            ++ unpackActs r env
                (root ++ "/" ++ lower r.name ++ "/" ++ fn_from_url url)
                ((root ++ "/" ++ lower r.name ++ "/" ++ fn_from_url url) ++ "_unpacked")
                (updateCheck r env url
                  (root ++ "/" ++ lower r.name ++ "/" ++ fn_from_url url)
                  (!env.pathExists (root ++ "/" ++ lower r.name ++ "/" ++ fn_from_url url)))
                false := by
        simp only [_download, truthyStr, Option.getD_some, Bool.false_eq_true, if_false]
      rw [hsplit] at hacts
      constructor
      · intro a ha
        rw [hacts] at ha
        simp only [List.mem_append] at ha
        rcases ha with ((ha | ha) | ha) | ha
        · exact acts0_no_unpack _ _ a ha
        · rcases updateCheckLog_only_logs _ _ _ _ _ a ha with ⟨m, hm⟩ | ⟨m, hm⟩ <;>
            (subst hm; rfl)
        · exact transferActs_no_unpack _ _ _ _ _ a ha
        · rw [unpackActs_false_nil] at ha
          simp at ha
      · intro u d hmem
        rw [hacts] at hmem
        simp only [List.mem_append] at hmem
        rcases hmem with ((hm | hm) | hm) | hm
        · exfalso
          revert hm
          split <;> simp
        · exfalso
          rcases updateCheckLog_only_logs _ _ _ _ _ _ hm with ⟨m, h2⟩ | ⟨m, h2⟩ <;>
            exact RAction.noConfusion h2
        · have := transferActs_downloadFile_inv _ _ _ _ _ _ _ hm
          refine ⟨?_, ?_⟩
          · rw [this.1]
          · rw [this.2, this.1]
        · rw [unpackActs_false_nil] at hm
          simp at hm

/-- C10 witness: on a descriptor with `default`, `linux` and `windows` URLs
present, the `windows` URL wins irrespective of platform. -/
theorem c10_cache_precedence_witness :
    cacheUrl capResource
      = (capResource.windows.orElse fun _ => capResource.darwin.orElse fun _ =>
          capResource.linux.orElse fun _ => capResource.default) :=
  (c10_cache_precedence_and_no_unpack capResource updEnv "root" (by decide)).1

end Jvd
